import Mathlib

/-!
Verification of the `AllPerks` React component
(`src/client/src/pages/AllPerks.jsx`).

The file gives a shallow embedding of the component's data model and
state logic:

* `Perk`, `Request`, `CompState` — the data model (perk records, the
  outbound query of `loadAllPerks`, and the component's local state).
* `requestOf`, `issueFetch`, `settleFetch` — the `loadAllPerks` function,
  split into the request it issues, the state change at issue time
  (`setError('')`, `setLoading(true)`), and the state change when the
  promise settles (`setPerks` / `setError(... || fallback)` /
  `setLoading(false)`).
* `keptMerchants`, `jsSetDedup`, `uniqueMerchantsOf` — the
  unique-merchants derivation effect
  (`perks.map(...).filter(m => m && m.trim())` spread through a `Set`).
* `handleReset`, `resetRequests` — the Reset handler and the fetches the
  auto-search effect issues afterwards (its dependency array is
  `[debouncedSearchQuery, merchantFilter]`).
* `DebEvent`, `DebState`, `debStep`, `debUpdates` — an event-trace
  machine for the `useDebounce` hook: each input change cancels the
  pending `setTimeout` and re-arms it for `delay` ms later; unmount
  clears the pending timer.
* `initialState`, `mountRequests` — the mount sequence.
-/

/-! ## Data model -/

/-- Creator reference on a perk (`perk.createdBy`). -/
structure Creator where
  name : Option String
  email : Option String
deriving DecidableEq

/-- A perk record as consumed by the component (read-only display data). -/
structure Perk where
  id : String
  title : String
  category : String
  merchant : Option String
  discountPercent : Option Int
  description : Option String
  createdBy : Option Creator
deriving DecidableEq

/-- The outbound request of `loadAllPerks`: `GET /perks/all` with optional
`search` and `merchant` query parameters (`none` = parameter absent,
mirroring `undefined` params which axios omits). -/
structure Request where
  search : Option String
  merchant : Option String
deriving DecidableEq

/-- The component's local state: the six `useState` cells plus the
debounced copy of the search query produced by `useDebounce`. -/
structure CompState where
  perks : List Perk
  searchQuery : String
  merchantFilter : String
  uniqueMerchants : List String
  loading : Bool
  error : String
  debouncedSearchQuery : String
deriving DecidableEq

/-! ## The `loadAllPerks` fetch path -/

/-- Drop leading whitespace characters from a character list. -/
def dropWhileWs : List Char → List Char
  | [] => []
  | c :: cs => if c.isWhitespace then dropWhileWs cs else c :: cs

/-- JS `s.trim()`: remove leading and trailing whitespace. Embedded over
the character list so that it evaluates by kernel reduction. -/
def jsTrim (s : String) : String :=
  ⟨(dropWhileWs (dropWhileWs s.data).reverse).reverse⟩

/-- JS `s || undefined` on a string: a non-empty string is truthy and kept,
the empty string is falsy and replaced by `undefined` (here `none`). -/
def jsOrUndefined (v : String) : Option String :=
  if v = "" then none else some v

/-- The params object of `loadAllPerks`:
`search: q.trim() || undefined, merchant: m.trim() || undefined`. -/
def requestOf (q m : String) : Request :=
  { search := jsOrUndefined (jsTrim q), merchant := jsOrUndefined (jsTrim m) }

/-- The request `loadAllPerks` issues from a given state: it reads the
DEBOUNCED search query and the immediate merchant filter. -/
def loadRequest (s : CompState) : Request :=
  requestOf s.debouncedSearchQuery s.merchantFilter

/-- State change at the start of `loadAllPerks`: `setError('')`,
`setLoading(true)`. -/
def issueFetch (s : CompState) : CompState :=
  { s with error := "", loading := true }

/-- Outcome of one fetch attempt: the promise resolves with a perk list,
or rejects with an optional `err?.response?.data?.message`. -/
inductive FetchOutcome where
  | success (ps : List Perk)
  | failure (msg : Option String)
deriving DecidableEq

/-- The generic fallback error message of `loadAllPerks`. -/
def fallbackMessage : String := "Failed to load perks"

/-- JS `m || fallback` where `m` is an optional string: an absent or empty
(falsy) message yields the fallback. -/
def jsOr (m : Option String) (fallback : String) : String :=
  match m with
  | some v => if v = "" then fallback else v
  | none => fallback

/-- State change when a fetch attempt settles: on success
`setPerks(res.data.perks)`, on failure
`setError(err?.response?.data?.message || 'Failed to load perks')`,
and in `finally` always `setLoading(false)`. -/
def settleFetch (s : CompState) (o : FetchOutcome) : CompState :=
  match o with
  | .success ps => { s with perks := ps, loading := false }
  | .failure msg => { s with error := jsOr msg fallbackMessage, loading := false }

/-- Settling several in-flight responses in the order in which they
resolve: each resolution applies `settleFetch` unconditionally — the code
carries no request token or cancellation, so every response writes. -/
def resolveAll (s : CompState) (os : List FetchOutcome) : CompState :=
  os.foldl settleFetch s

/-! ## Unique-merchants derivation -/

/-- `perks.map(p => p.merchant).filter(m => m && m.trim())`: keep the
merchant values that are present, non-empty and not whitespace-only.
The kept values are the ORIGINAL strings, not their trimmed forms. -/
def keptMerchants (ps : List Perk) : List String :=
  (ps.map Perk.merchant).filterMap fun m =>
    match m with
    | some v => if v ≠ "" && jsTrim v ≠ "" then some v else none
    | none => none

/-- `[...new Set(xs)]`: deduplicate by iterating and inserting each element
unless already present (JS `Set` insertion-order semantics). -/
def jsSetDedup (l : List String) : List String :=
  l.foldl (fun acc x => if x ∈ acc then acc else acc ++ [x]) []

/-- The value the merchant-derivation effect stores in `uniqueMerchants`
for a given perks list. -/
def uniqueMerchantsOf (ps : List Perk) : List String :=
  jsSetDedup (keptMerchants ps)

/-- Modelled from the spec's words, for comparison with the source-derived
`uniqueMerchantsOf`: the distinct, non-empty, TRIMMED merchant field
values of the perks list. -/
def specUniqueMerchants (ps : List Perk) : List String :=
  jsSetDedup ((((ps.map Perk.merchant).filterMap id).map jsTrim).filter fun v => v ≠ "")

/-- First-occurrence deduplication stated by recursion: keep the head and
drop all its later duplicates before recursing. -/
def firstOccurDedup : List String → List String
  | [] => []
  | a :: l => a :: firstOccurDedup (l.filter fun x => x ≠ a)
termination_by l => l.length
decreasing_by
  simp only [List.length_cons]
  exact Nat.lt_succ_of_le (List.length_filter_le _ l)

/-! ## Reset and the auto-search effect -/

/-- `handleReset`: `setSearchQuery('')`, `setMerchantFilter('')`,
`setError('')`. -/
def handleReset (s : CompState) : CompState :=
  { s with searchQuery := "", merchantFilter := "", error := "" }

/-- The fetches issued after `handleReset`, in order. The auto-search
effect has dependency array `[debouncedSearchQuery, merchantFilter]`:

* at the reset render the merchant filter becomes `""`, so the effect
  re-runs exactly when the old filter was non-empty — the debounced query
  is still the old one at that point;
* once the debounce settles, `debouncedSearchQuery` becomes `""`, so the
  effect re-runs exactly when the old debounced query was non-empty,
  now with both filters empty.

If neither dependency changes, the effect does not re-run and no fetch is
issued. -/
def resetRequests (s : CompState) : List Request :=
  (if s.merchantFilter ≠ "" then [requestOf s.debouncedSearchQuery ""] else [])
    ++ (if s.debouncedSearchQuery ≠ "" then [requestOf "" ""] else [])

/-! ## Debounce event machine (`useDebounce`) -/

/-- External events seen by the debounce hook: an input-value change at a
point in time, or component teardown. -/
inductive DebEvent where
  | change (t : Nat) (v : String)
  | unmount (t : Nat)
deriving DecidableEq

/-- Machine state: the pending `setTimeout` (fire time and the value it
will publish), whether the component is still mounted, and the debounced
updates published so far (with their times). -/
structure DebState where
  pending : Option (Nat × String)
  mounted : Bool
  updates : List (Nat × String)
deriving DecidableEq

/-- A pending timer whose fire time has arrived by `cutoff` fires: it
publishes its value and is no longer pending. -/
def fireDue (cutoff : Nat) (s : DebState) : DebState :=
  match s.pending with
  | some (ft, v) =>
      if ft ≤ cutoff then { s with pending := none, updates := s.updates ++ [(ft, v)] }
      else s
  | none => s

/-- One event. On a change at time `t`: any timer already due has fired;
the effect's cleanup then cancels the still-pending timer and re-arms it
for `t + delay` with the new value (`clearTimeout` + `setTimeout`). On
unmount: any timer already due has fired; the cleanup cancels the pending
timer and nothing is ever re-armed. -/
def debStep (delay : Nat) (s : DebState) (e : DebEvent) : DebState :=
  match e with
  | .change t v =>
      let s' := fireDue t s
      if s'.mounted then { s' with pending := some (t + delay, v) } else s'
  | .unmount t =>
      let s' := fireDue t s
      { s' with pending := none, mounted := false }

/-- Initial machine state: nothing pending, mounted, no updates yet. -/
def debInit : DebState := { pending := none, mounted := true, updates := [] }

/-- Run the machine over an event trace. -/
def debRun (delay : Nat) (es : List DebEvent) : DebState :=
  es.foldl (debStep delay) debInit

/-- All debounced updates a trace produces: the updates published during
the trace, plus the pending timer, which fires once the trace is over
(after unmount there is no pending timer). -/
def debUpdates (delay : Nat) (es : List DebEvent) : List (Nat × String) :=
  let s := debRun delay es
  match s.pending with
  | some p => s.updates ++ [p]
  | none => s.updates

/-! ## Mount sequence -/

/-- The initial values of the `useState` cells; `useDebounce` starts with
the initial `searchQuery`. -/
def initialState : CompState :=
  { perks := []
    searchQuery := ""
    merchantFilter := ""
    uniqueMerchants := []
    loading := true
    error := ""
    debouncedSearchQuery := "" }

/-- Dependency array of the auto-search effect. -/
def effect2Deps (s : CompState) : String × String :=
  (s.debouncedSearchQuery, s.merchantFilter)

/-- The fetches issued during mount. The first effect body is empty; the
auto-search effect always runs on its first render and calls
`loadAllPerks`. The debounce timer armed at mount fires 500ms later with
the initial `searchQuery`, and the auto-search effect re-runs only if its
dependencies changed. -/
def mountRequests : List Request :=
  let s0 := initialState
  let s1 := issueFetch s0
  let s2 := { s1 with debouncedSearchQuery := s1.searchQuery }
  [loadRequest s0] ++ (if effect2Deps s2 ≠ effect2Deps s0 then [loadRequest s2] else [])

/-! ## Helper lemmas -/

/-- Membership in `firstOccurDedup` is membership in the original list. -/
theorem mem_firstOccurDedup (a : String) : ∀ l : List String, a ∈ firstOccurDedup l ↔ a ∈ l := by
  intro l
  induction l using firstOccurDedup.induct with
  | case1 => simp [firstOccurDedup]
  | case2 b t ih =>
    rw [firstOccurDedup]
    simp only [List.mem_cons, ih, List.mem_filter]
    by_cases hab : a = b <;> simp [hab]

/-- `firstOccurDedup` produces a duplicate-free list. -/
theorem nodup_firstOccurDedup : ∀ l : List String, (firstOccurDedup l).Nodup := by
  intro l
  induction l using firstOccurDedup.induct with
  | case1 => simp [firstOccurDedup]
  | case2 b t ih =>
    rw [firstOccurDedup]
    refine List.nodup_cons.mpr ⟨?_, ih⟩
    intro hb
    rw [mem_firstOccurDedup] at hb
    simp [List.mem_filter] at hb

/-- The `Set`-insertion fold, started from any accumulator, appends the
first occurrences of the elements not already accumulated. -/
theorem jsSetDedup_foldl_eq (l : List String) :
    ∀ acc : List String,
      l.foldl (fun acc x => if x ∈ acc then acc else acc ++ [x]) acc =
        acc ++ firstOccurDedup (l.filter fun x => x ∉ acc) := by
  induction l with
  | nil => intro acc; simp [firstOccurDedup]
  | cons a t ih =>
    intro acc
    by_cases ha : a ∈ acc
    · rw [List.foldl_cons, if_pos ha, ih acc, List.filter_cons]
      simp [ha]
    · rw [List.foldl_cons, if_neg ha, ih (acc ++ [a]), List.filter_cons]
      have hcond : decide (a ∉ acc) = true := by simp [ha]
      rw [if_pos hcond, firstOccurDedup, List.filter_filter]
      have hpred : ∀ x : String,
          (decide (x ∉ acc ++ [a])) = ((decide (x ∉ acc)) && decide (x ≠ a)) := by
        intro x
        by_cases h1 : x ∈ acc <;> by_cases h2 : x = a <;> simp [h1, h2]
      rw [List.filter_congr fun x _ => hpred x]
      have hcomm : (List.filter (fun x => decide (x ∉ acc) && decide (x ≠ a)) t) =
          (List.filter (fun x => decide (x ≠ a) && decide (x ∉ acc)) t) :=
        List.filter_congr fun x _ => Bool.and_comm _ _
      rw [hcomm]
      simp

/-- JS `Set` spreading deduplicates keeping first occurrences. -/
theorem jsSetDedup_eq_firstOccurDedup (l : List String) :
    jsSetDedup l = firstOccurDedup l := by
  have h := jsSetDedup_foldl_eq l []
  simpa [jsSetDedup] using h

/-- The trim of the empty string is empty. -/
theorem jsTrim_empty_of_eq (v : String) (h : v = "") : jsTrim v = "" := by
  subst h; rfl

/-- Membership in the kept-merchants list: the merchant value occurs in the
perks list and its trimmed form is non-empty. -/
theorem mem_keptMerchants (ps : List Perk) (m : String) :
    m ∈ keptMerchants ps ↔ (∃ p ∈ ps, p.merchant = some m) ∧ jsTrim m ≠ "" := by
  unfold keptMerchants
  rw [List.mem_filterMap]
  constructor
  · rintro ⟨o, ho, hf⟩
    rcases o with _ | v
    · simp at hf
    · by_cases hv : v = ""
      · subst hv; simp at hf
      · by_cases ht : jsTrim v = ""
        · simp [hv, ht] at hf
        · simp only [hv, ht, ne_eq, not_false_eq_true, decide_True, Bool.and_self,
            decide_eq_true_eq, if_true, Option.some.injEq] at hf
          subst hf
          rw [List.mem_map] at ho
          obtain ⟨p, hp, hpm⟩ := ho
          exact ⟨⟨p, hp, hpm⟩, ht⟩
  · rintro ⟨⟨p, hp, hpm⟩, htrim⟩
    refine ⟨some m, ?_, ?_⟩
    · rw [List.mem_map]
      exact ⟨p, hp, hpm⟩
    · have hne : m ≠ "" := fun h => htrim (jsTrim_empty_of_eq m h)
      simp [hne, htrim]

/-- The time at which an event occurs. -/
def debEventTime : DebEvent → Nat
  | .change t _ => t
  | .unmount t => t

/-- Map an input-change list to the corresponding machine events. -/
def changeEvents (es : List (Nat × String)) : List DebEvent :=
  es.map fun p => DebEvent.change p.1 p.2

/-- A change arriving strictly before the pending timer's fire time
cancels it and re-arms: the pending slot now holds the new value, the
published updates are untouched. -/
theorem debStep_change_fast (delay t t' : Nat) (v v' : String) (u : List (Nat × String))
    (hlt : t' < t + delay) :
    debStep delay { pending := some (t + delay, v), mounted := true, updates := u }
        (.change t' v') =
      { pending := some (t' + delay, v'), mounted := true, updates := u } := by
  have hnot : ¬ (t + delay ≤ t') := by omega
  unfold debStep fireDue
  simp [hnot]

/-- Folding a run of rapid changes (each arriving before the previous
timer fires) just re-arms the timer: the last change's value is pending,
nothing is published. -/
theorem debFoldl_fast (delay : Nat) :
    ∀ (es : List (Nat × String)) (t : Nat) (v : String) (u : List (Nat × String)),
      List.Chain' (fun a b => b.1 < a.1 + delay) ((t, v) :: es) →
      (changeEvents es).foldl (debStep delay)
          { pending := some (t + delay, v), mounted := true, updates := u } =
        { pending := some ((es.getLastD (t, v)).1 + delay, (es.getLastD (t, v)).2),
          mounted := true, updates := u } := by
  intro es
  induction es with
  | nil => intro t v u _; simp [changeEvents, List.getLastD]
  | cons b rest ih =>
    intro t v u h
    obtain ⟨t', v'⟩ := b
    rw [List.chain'_cons] at h
    rw [changeEvents, List.map_cons, List.foldl_cons,
      debStep_change_fast delay t t' v v' u h.1]
    rw [List.getLastD_cons]
    exact ih t' v' u h.2

/-- Firing a due timer only publishes updates timestamped at or before the
cutoff, so a bound on the published times is preserved. -/
theorem fireDue_updates_le (U cutoff : Nat) (s : DebState) (hc : cutoff ≤ U)
    (hs : ∀ u ∈ s.updates, u.1 ≤ U) :
    ∀ u ∈ (fireDue cutoff s).updates, u.1 ≤ U := by
  unfold fireDue
  rcases hp : s.pending with _ | ⟨ft, v⟩
  · simpa using hs
  · by_cases hle : ft ≤ cutoff
    · simp only [if_pos hle]
      intro u hu
      rcases List.mem_append.mp hu with h | h
      · exact hs u h
      · have : u = (ft, v) := by simpa using h
        subst this
        omega
    · simpa [hle] using hs

/-- A step never removes or alters updates beyond what the due timer
publishes: the updates after a step are those after firing the due timer. -/
theorem debStep_updates_eq (delay : Nat) (s : DebState) (e : DebEvent) :
    (debStep delay s e).updates = (fireDue (debEventTime e) s).updates := by
  rcases e with ⟨t, v⟩ | t
  · simp only [debStep, debEventTime]
    by_cases hm : (fireDue t s).mounted <;> simp [hm]
  · rfl

/-- One machine step at a time within the bound keeps every published
update within the bound. -/
theorem debStep_updates_le (delay U : Nat) (s : DebState) (e : DebEvent)
    (ht : debEventTime e ≤ U) (hs : ∀ u ∈ s.updates, u.1 ≤ U) :
    ∀ u ∈ (debStep delay s e).updates, u.1 ≤ U := by
  intro u hu
  rw [debStep_updates_eq] at hu
  exact fireDue_updates_le U (debEventTime e) s ht hs u hu

/-- Folding events whose times are all within the bound keeps every
published update within the bound. -/
theorem debFoldl_updates_le (delay U : Nat) :
    ∀ (evs : List DebEvent) (s : DebState),
      (∀ e ∈ evs, debEventTime e ≤ U) →
      (∀ u ∈ s.updates, u.1 ≤ U) →
      ∀ u ∈ (evs.foldl (debStep delay) s).updates, u.1 ≤ U := by
  intro evs
  induction evs with
  | nil => intro s _ hs; simpa using hs
  | cons e rest ih =>
    intro s he hs
    rw [List.foldl_cons]
    exact ih _ (fun e' h' => he e' (List.mem_cons_of_mem _ h'))
      (debStep_updates_le delay U s e (he e (List.mem_cons_self _ _)) hs)

/-- Unmounting clears the pending timer. -/
theorem debStep_unmount_pending (delay t : Nat) (s : DebState) :
    (debStep delay s (.unmount t)).pending = none := by
  simp [debStep]

/-- With no pending timer at the end of the trace, the debounced updates
are exactly the published ones. -/
theorem debUpdates_pending_none (delay : Nat) (evs : List DebEvent)
    (h : (debRun delay evs).pending = none) :
    debUpdates delay evs = (debRun delay evs).updates := by
  simp only [debUpdates]
  rw [h]

/-! ## Concrete states used as inputs -/

/-- A reachable state: the user typed `"c"`, the debounce settled, then
they quickly typed on to `"cof"` — the input holds `"cof"` while the
debounced query is still `"c"`. -/
def staleSubmitState : CompState :=
  { perks := [], searchQuery := "cof", merchantFilter := "",
    uniqueMerchants := [], loading := false, error := "",
    debouncedSearchQuery := "c" }

/-- A perk whose merchant field carries surrounding whitespace. -/
def perkSpacedAcme : Perk :=
  { id := "p1", title := "Coffee", category := "food",
    merchant := some " Acme ", discountPercent := none,
    description := none, createdBy := none }

/-- A state with a whitespace-only search query and a merchant filter. -/
def whitespaceFilterState : CompState :=
  { perks := [], searchQuery := "  ", merchantFilter := "Acme",
    uniqueMerchants := [], loading := false, error := "",
    debouncedSearchQuery := "  " }

/-- A state with only the merchant filter active and an error showing. -/
def merchantOnlyState : CompState :=
  { perks := [], searchQuery := "", merchantFilter := "Acme",
    uniqueMerchants := ["Acme"], loading := false, error := "boom",
    debouncedSearchQuery := "" }

/-- `handleSearch`: `e.preventDefault()` followed by an immediate
`loadAllPerks()` call — one fetch, not gated by any timer, reading the
current state. -/
def handleSearchStep (s : CompState) : CompState × List Request :=
  (issueFetch s, [loadRequest s])

/-! ## Claim theorems -/

/-- C1 counterexample: pressing Enter / the Search button in
`staleSubmitState` issues the fetch immediately, but its `search`
parameter is the stale debounced value `"c"`, not the latest typed text
`"cof"`: `handleSearch` calls `loadAllPerks`, which reads
`debouncedSearchQuery`, not `searchQuery`. -/
theorem explicit_submit_stale_param_counterexample :
    staleSubmitState.searchQuery = "cof" ∧
    (loadRequest staleSubmitState).search = some "c" ∧
    (loadRequest staleSubmitState).search ≠ some (jsTrim staleSubmitState.searchQuery) :=
  ⟨rfl, by decide, by decide⟩

/-- C1 (amended): explicit submit issues exactly one immediate fetch,
without waiting for the debounce delay, but that fetch's `search`
parameter is the trimmed DEBOUNCED search text at submit time (absent
when trim-empty), which can lag behind the text currently typed in the
input. -/
theorem explicit_submit_immediate_but_debounced (s : CompState) :
    (handleSearchStep s).2 = [requestOf s.debouncedSearchQuery s.merchantFilter] ∧
    ((jsTrim s.debouncedSearchQuery = "" ∧ (loadRequest s).search = none) ∨
      (jsTrim s.debouncedSearchQuery ≠ "" ∧
        (loadRequest s).search = some (jsTrim s.debouncedSearchQuery))) := by
  refine ⟨rfl, ?_⟩
  unfold loadRequest requestOf jsOrUndefined
  by_cases h : jsTrim s.debouncedSearchQuery = "" <;> simp [h]

/-- Witness for the amended C1 at `staleSubmitState`. -/
theorem explicit_submit_immediate_witness :
    (handleSearchStep staleSubmitState).2 = [requestOf "c" ""] ∧
    (loadRequest staleSubmitState).search = some (jsTrim "c") := by
  have h := explicit_submit_immediate_but_debounced staleSubmitState
  refine ⟨h.1, ?_⟩
  rcases h.2 with ⟨he, _⟩ | ⟨_, hr⟩
  · exact absurd he (by decide)
  · exact hr

/-- C2 counterexample: for a perk whose merchant is `" Acme "`, the
derivation stores the ORIGINAL untrimmed string — the filter only TESTS
`merchant.trim()`, it does not map to it — so `uniqueMerchants` is
`[" Acme "]`, which differs from the set of distinct non-empty trimmed
merchant values `["Acme"]`. -/
theorem unique_merchants_untrimmed_counterexample :
    uniqueMerchantsOf [perkSpacedAcme] = [" Acme "] ∧
    specUniqueMerchants [perkSpacedAcme] = ["Acme"] ∧
    uniqueMerchantsOf [perkSpacedAcme] ≠ specUniqueMerchants [perkSpacedAcme] :=
  ⟨by decide, by decide, by decide⟩

/-- C2 (amended): after the derivation effect runs for the current perks
list, `uniqueMerchants` is duplicate-free and contains exactly the
ORIGINAL (untrimmed) merchant strings of the list that are present and
whose trimmed form is non-empty; being a pure function of the perks list,
it is never mutated independently of `perks`. -/
theorem unique_merchants_invariant (ps : List Perk) :
    (uniqueMerchantsOf ps).Nodup ∧
    ∀ m, m ∈ uniqueMerchantsOf ps ↔
      ((∃ p ∈ ps, p.merchant = some m) ∧ jsTrim m ≠ "") := by
  constructor
  · rw [uniqueMerchantsOf, jsSetDedup_eq_firstOccurDedup]
    exact nodup_firstOccurDedup _
  · intro m
    rw [uniqueMerchantsOf, jsSetDedup_eq_firstOccurDedup, mem_firstOccurDedup,
      mem_keptMerchants]

/-- Witness for the amended C2 at a one-perk list. -/
theorem unique_merchants_invariant_witness :
    (uniqueMerchantsOf [perkSpacedAcme]).Nodup ∧
    " Acme " ∈ uniqueMerchantsOf [perkSpacedAcme] := by
  have h := unique_merchants_invariant [perkSpacedAcme]
  exact ⟨h.1, (h.2 " Acme ").mpr ⟨⟨perkSpacedAcme, by simp, rfl⟩, by decide⟩⟩

/-- The error written on failure is never the empty string. -/
theorem jsOr_fallback_ne_empty (msg : Option String) :
    jsOr msg fallbackMessage ≠ "" := by
  rcases msg with _ | v
  · decide
  · by_cases hv : v = ""
    · subst hv; decide
    · simp [jsOr, hv]

/-- C3: a failed fetch leaves `perks` unchanged from before the attempt,
ends with `loading = false`, and sets `error` to a non-empty string: the
collaborator's message when a non-empty one is present in the error
response, the generic fallback otherwise. -/
theorem fetch_failure_state (s : CompState) (msg : Option String) :
    (settleFetch (issueFetch s) (.failure msg)).perks = s.perks ∧
    (settleFetch (issueFetch s) (.failure msg)).loading = false ∧
    (settleFetch (issueFetch s) (.failure msg)).error ≠ "" ∧
    (∀ m, msg = some m → m ≠ "" →
      (settleFetch (issueFetch s) (.failure msg)).error = m) ∧
    ((msg = none ∨ msg = some "") →
      (settleFetch (issueFetch s) (.failure msg)).error = fallbackMessage) := by
  refine ⟨rfl, rfl, jsOr_fallback_ne_empty msg, ?_, ?_⟩
  · rintro m rfl hne
    show jsOr (some m) fallbackMessage = m
    simp [jsOr, hne]
  · rintro (rfl | rfl)
    · rfl
    · rfl

/-- Witness for C3: a rejection with no response body at the initial
state yields the generic fallback message. -/
theorem fetch_failure_witness :
    (settleFetch (issueFetch initialState) (.failure none)).perks = [] ∧
    (settleFetch (issueFetch initialState) (.failure none)).loading = false ∧
    (settleFetch (issueFetch initialState) (.failure none)).error = fallbackMessage ∧
    fallbackMessage ≠ "" := by
  have h := fetch_failure_state initialState none
  exact ⟨h.1, h.2.1, h.2.2.2.2 (Or.inl rfl), by decide⟩

/-- C4: every fetch omits the `search` parameter exactly when the
debounced query trims to empty, and the `merchant` parameter exactly when
the merchant filter trims to empty; otherwise the parameter carries the
trimmed value (never an empty string). -/
theorem request_params_trimmed_or_absent (s : CompState) :
    ((jsTrim s.debouncedSearchQuery = "" ∧ (loadRequest s).search = none) ∨
      (jsTrim s.debouncedSearchQuery ≠ "" ∧
        (loadRequest s).search = some (jsTrim s.debouncedSearchQuery))) ∧
    ((jsTrim s.merchantFilter = "" ∧ (loadRequest s).merchant = none) ∨
      (jsTrim s.merchantFilter ≠ "" ∧
        (loadRequest s).merchant = some (jsTrim s.merchantFilter))) := by
  constructor
  · unfold loadRequest requestOf jsOrUndefined
    by_cases h : jsTrim s.debouncedSearchQuery = "" <;> simp [h]
  · unfold loadRequest requestOf jsOrUndefined
    by_cases h : jsTrim s.merchantFilter = "" <;> simp [h]

/-- Witness for C4: a whitespace-only query is omitted while the merchant
filter is sent trimmed. -/
theorem request_params_witness :
    (loadRequest whitespaceFilterState).search = none ∧
    (loadRequest whitespaceFilterState).merchant = some "Acme" := by
  have h := request_params_trimmed_or_absent whitespaceFilterState
  rcases h.1 with ⟨_, hs⟩ | ⟨hne, _⟩
  · rcases h.2 with ⟨he, _⟩ | ⟨_, hm⟩
    · exact absurd he (by decide)
    · exact ⟨hs, hm⟩
  · exact absurd (by decide : jsTrim whitespaceFilterState.debouncedSearchQuery = "") hne

/-- C5 counterexample: triggering Reset when the filters and the debounced
query are already empty changes no state cell and no dependency of the
auto-search effect, so NO subsequent fetch is issued: the claim's "a
subsequent fetch is issued" fails at this state. -/
theorem reset_no_fetch_counterexample :
    handleReset initialState = initialState ∧
    resetRequests initialState = [] :=
  ⟨rfl, rfl⟩

/-- C5 (amended): Reset always clears `searchQuery`, `merchantFilter` and
`error` to empty; when the merchant filter or the debounced query was
non-empty, the auto-search effect re-runs and a fetch with no filter
parameters is issued (after the debounce settles when the debounced query
was non-empty); when both were already empty, no dependency changes and
no new fetch is issued. -/
theorem reset_clears_and_refetches (s : CompState) :
    (handleReset s).searchQuery = "" ∧
    (handleReset s).merchantFilter = "" ∧
    (handleReset s).error = "" ∧
    ((s.merchantFilter ≠ "" ∨ s.debouncedSearchQuery ≠ "") →
      ∃ r ∈ resetRequests s, r.search = none ∧ r.merchant = none) ∧
    ((s.merchantFilter = "" ∧ s.debouncedSearchQuery = "") →
      resetRequests s = []) := by
  refine ⟨rfl, rfl, rfl, ?_, ?_⟩
  · intro hne
    by_cases hd : s.debouncedSearchQuery = ""
    · have hm : s.merchantFilter ≠ "" := by tauto
      refine ⟨requestOf "" "", ?_, by decide, by decide⟩
      simp [resetRequests, hm, hd]
    · refine ⟨requestOf "" "", ?_, by decide, by decide⟩
      simp [resetRequests, hd]
  · rintro ⟨hm, hd⟩
    simp [resetRequests, hm, hd]

/-- Witness for the amended C5 at `merchantOnlyState`. -/
theorem reset_clears_witness :
    (handleReset merchantOnlyState).searchQuery = "" ∧
    (handleReset merchantOnlyState).merchantFilter = "" ∧
    (handleReset merchantOnlyState).error = "" ∧
    (∃ r ∈ resetRequests merchantOnlyState, r.search = none ∧ r.merchant = none) := by
  have h := reset_clears_and_refetches merchantOnlyState
  exact ⟨h.1, h.2.1, h.2.2.1, h.2.2.2.1 (Or.inl (by decide))⟩

/-- C8: responses carry no request token and are never cancelled — each
success overwrites `perks` wholesale, so with two in-flight requests the
response that resolves LAST determines the final `perks`, regardless of
issue order: here the older request's payload `pOld` resolves after the
newer `pNew` and wins; in the opposite resolution order the newer wins. -/
theorem last_resolved_response_wins (s : CompState) (pOld pNew : List Perk) :
    (resolveAll (issueFetch (issueFetch s)) [.success pNew, .success pOld]).perks = pOld ∧
    (resolveAll (issueFetch (issueFetch s)) [.success pOld, .success pNew]).perks = pNew :=
  ⟨rfl, rfl⟩

/-- Witness for C8 at concrete payloads. -/
theorem last_resolved_response_wins_witness :
    (resolveAll (issueFetch (issueFetch initialState))
        [.success [perkSpacedAcme], .success []]).perks = [] :=
  (last_resolved_response_wins initialState [] [perkSpacedAcme]).1

/-- C9: the `Set`-based derivation is deterministic and ordered — it lists
the kept merchant values in order of their first occurrence in the perks
list, with later duplicates dropped. -/
theorem unique_merchants_first_occurrence_order (ps : List Perk) :
    uniqueMerchantsOf ps = firstOccurDedup (keptMerchants ps) := by
  rw [uniqueMerchantsOf, jsSetDedup_eq_firstOccurDedup]

/-- Perks over merchants `Beta`, `Alpha`, `Beta` in that order. -/
def perkB1 : Perk :=
  { id := "b1", title := "B1", category := "c", merchant := some "Beta",
    discountPercent := none, description := none, createdBy := none }

/-- Second sample perk, merchant `Alpha`. -/
def perkA1 : Perk :=
  { id := "a1", title := "A1", category := "c", merchant := some "Alpha",
    discountPercent := none, description := none, createdBy := none }

/-- Third sample perk, duplicate merchant `Beta`. -/
def perkB2 : Perk :=
  { id := "b2", title := "B2", category := "c", merchant := some "Beta",
    discountPercent := none, description := none, createdBy := none }

/-- Witness for C9: the duplicate `Beta` keeps its first position. -/
theorem unique_merchants_order_witness :
    uniqueMerchantsOf [perkB1, perkA1, perkB2] =
      firstOccurDedup (keptMerchants [perkB1, perkA1, perkB2]) ∧
    uniqueMerchantsOf [perkB1, perkA1, perkB2] = ["Beta", "Alpha"] :=
  ⟨unique_merchants_first_occurrence_order _, by decide⟩

/-- C10: on mount the component starts with `loading = true`, empty perks
and error, and the auto-search effect's first run issues exactly one
fetch with both the `search` and `merchant` parameters absent; the
mount-armed debounce timer later fires with the unchanged empty query, so
the effect's dependencies are unchanged and it does not re-run. -/
theorem mount_initial_state_one_fetch :
    initialState.loading = true ∧
    initialState.perks = [] ∧
    initialState.error = "" ∧
    initialState.searchQuery = "" ∧
    initialState.merchantFilter = "" ∧
    mountRequests = [{ search := none, merchant := none }] :=
  ⟨rfl, rfl, rfl, rfl, rfl, by decide⟩

/-- C6: for any non-empty sequence of input changes in which each change
arrives strictly less than `delay` after the previous one, the debounce
machine publishes EXACTLY ONE update: the final value of the sequence, at
its change time plus `delay` (it remained unchanged for the full delay).
No intermediate keystroke produces an update, so only the final value can
trigger a fetch. The component instantiates `delay` with 500. -/
theorem debounce_only_final_value_updates (delay : Nat) (e : Nat × String)
    (rest : List (Nat × String))
    (hfast : List.Chain' (fun a b => b.1 < a.1 + delay) (e :: rest)) :
    debUpdates delay (changeEvents (e :: rest)) =
      [((rest.getLastD e).1 + delay, (rest.getLastD e).2)] := by
  obtain ⟨t, v⟩ := e
  have hfirst : debStep delay debInit (.change t v) =
      { pending := some (t + delay, v), mounted := true, updates := [] } := by
    simp [debStep, fireDue, debInit]
  simp only [debUpdates, debRun, changeEvents, List.map_cons, List.foldl_cons]
  rw [hfirst]
  have hfold := debFoldl_fast delay rest t v [] hfast
  rw [changeEvents] at hfold
  rw [hfold]
  rfl

/-- Witness for C6: typing `"c"`, `"co"`, `"cof"` 100ms apart produces the
single update `("cof", at 700)`. -/
theorem debounce_only_final_value_witness :
    List.Chain' (fun a b => b.1 < a.1 + 500)
      [((0 : Nat), "c"), (100, "co"), (200, "cof")] ∧
    debUpdates 500 (changeEvents [((0 : Nat), "c"), (100, "co"), (200, "cof")]) =
      [(700, "cof")] := by
  refine ⟨by norm_num [List.chain'_cons], ?_⟩
  have h := debounce_only_final_value_updates 500 (0, "c") [(100, "co"), (200, "cof")]
    (by norm_num [List.chain'_cons])
  exact h

/-- C7: appending a teardown at time `U` (no earlier than every change) to
any change trace cancels the pending timer, and every update the machine
ever publishes is timestamped at or before `U`: no debounced-value update
occurs after teardown. In particular a timer still pending at teardown
(fire time past `U`) never publishes. -/
theorem debounce_teardown_cancels (delay U : Nat) (es : List (Nat × String))
    (hle : ∀ p ∈ es, p.1 ≤ U) :
    (∀ upd ∈ debUpdates delay (changeEvents es ++ [DebEvent.unmount U]), upd.1 ≤ U) ∧
    (debRun delay (changeEvents es ++ [DebEvent.unmount U])).pending = none := by
  have hpend : (debRun delay (changeEvents es ++ [DebEvent.unmount U])).pending = none := by
    rw [debRun, List.foldl_append]
    exact debStep_unmount_pending delay U _
  refine ⟨?_, hpend⟩
  intro upd hupd
  rw [debUpdates_pending_none delay _ hpend] at hupd
  have hall : ∀ e ∈ changeEvents es ++ [DebEvent.unmount U], debEventTime e ≤ U := by
    intro e he
    rcases List.mem_append.mp he with h | h
    · rw [changeEvents, List.mem_map] at h
      obtain ⟨p, hp, rfl⟩ := h
      exact hle p hp
    · rw [List.mem_singleton] at h
      subst h
      exact Nat.le_refl U
  exact debFoldl_updates_le delay U _ debInit hall (by simp [debInit]) upd hupd

/-- Witness for C7: one change at time 0, teardown at 300 (before the
500ms fire time): the pending update is cancelled and nothing is ever
published. -/
theorem debounce_teardown_witness :
    ((0 : Nat), "a").1 ≤ 300 ∧
    (debRun 500 (changeEvents [((0 : Nat), "a")] ++ [DebEvent.unmount 300])).pending = none ∧
    debUpdates 500 (changeEvents [((0 : Nat), "a")] ++ [DebEvent.unmount 300]) = [] := by
  refine ⟨by decide, ?_, by decide⟩
  exact (debounce_teardown_cancels 500 300 [(0, "a")] (by decide)).2
